import Mathlib

/-!
Verification of the pinjol loan-ledger core (pkg/domain/loan.go and
pkg/domain/loan_service.go) against its specification.

Embedding conventions:
* Go `int64` / `int` become `ℤ` (`PaidCount`, a count starting at 0 and only
  incremented, becomes `ℕ`).
* Go `float64` rate arithmetic is embedded as exact rational arithmetic over
  `ℚ`; `math.Round` (round half away from zero) becomes `goRound`.
* `time.Time` values become Unix seconds (`ℤ`); `now.Sub(start).Hours()/24`
  truncated to `int` becomes integer division of the second difference by
  86400 (truncation = floor on the non-negative differences the code reaches).
* The `[50]Week` array becomes a `List Week`; the length-50 invariant is
  established at creation and preserved by every operation.
* Receiver mutation is modelled by state passing: a method that mutates the
  loan and returns `error` becomes a function `Loan → ... → Loan × Option E`
  whose first component is the (possibly unchanged) receiver state.  The Go
  methods return before any mutation in every failure branch.
-/

namespace Pinjol

/-- Rounding as Go `math.Round`: round half away from zero. -/
def goRound (q : ℚ) : ℤ :=
  if q < 0 then -⌊-q + 1/2⌋ else ⌊q + 1/2⌋

/-- Sentinel errors of pkg/domain/errors.go. -/
inductive LoanError where
  | ErrInvalidRequest
  | ErrUnsupportedProduct
  | ErrAlreadyPaid
  | ErrWrongAmount
deriving DecidableEq

/-- Week record from pkg/domain/loan.go (one schedule entry); `PaidAt` is an
optional Unix-seconds timestamp (Go `*time.Time`). -/
structure Week where
  Index : ℤ
  Amount : ℤ
  Paid : Bool
  PaidAt : Option ℤ
deriving DecidableEq

instance : Inhabited Week := ⟨⟨0, 0, false, none⟩⟩

/-- Loan record from pkg/domain/loan.go. -/
structure Loan where
  ID : String
  Principal : ℤ
  APR : ℚ
  StartDate : ℤ
  WeeklyDue : ℤ
  Schedule : List Week
  PaidCount : ℕ
  Outstanding : ℤ
deriving DecidableEq

instance : Inhabited Loan := ⟨⟨"", 0, 0, 0, 0, [], 0, 0⟩⟩

/-- The schedule-initialization loop of NewLoan: 50 weeks, 1-based indices,
all unpaid, each owing `weeklyDue`. -/
def freshSchedule (weeklyDue : ℤ) : List Week :=
  (List.range 50).map (fun (i : ℕ) => ⟨(i : ℤ) + 1, weeklyDue, false, none⟩)

/-- NewLoan from pkg/domain/loan.go. -/
def NewLoan (id : String) (principal : ℤ) (apr : ℚ) (startDate : ℤ) :
    Except LoanError Loan :=
  if principal ≤ 0 then Except.error LoanError.ErrInvalidRequest
  else if apr < 0 then Except.error LoanError.ErrInvalidRequest
  else
    let totalDue : ℤ := goRound ((principal : ℚ) * (1 + apr))
    if totalDue % 50 ≠ 0 then Except.error LoanError.ErrUnsupportedProduct
    else
      let weeklyDue := totalDue / 50
      Except.ok
        { ID := id, Principal := principal, APR := apr, StartDate := startDate,
          WeeklyDue := weeklyDue,
          Schedule := freshSchedule weeklyDue,
          PaidCount := 0, Outstanding := totalDue }

/-- GetOutstanding from pkg/domain/loan.go: recomputes `Outstanding` by a scan
over the schedule, stores the result back on the loan and returns it. -/
def GetOutstanding (l : Loan) : Loan × ℤ :=
  let outstanding :=
    l.Schedule.foldl (fun acc w => if !w.Paid then acc + w.Amount else acc) 0
  ({ l with Outstanding := outstanding }, outstanding)

/-- The first-unpaid-week scan at the top of MakePayment (Go: a loop with
`break`, yielding -1 when every week is paid; here `none`). -/
def firstUnpaidIndex : List Week → Option ℕ
  | [] => none
  | w :: rest => if w.Paid then (firstUnpaidIndex rest).map (· + 1) else some 0

/-- MakePayment from pkg/domain/loan.go. -/
def MakePayment (l : Loan) (amount : ℤ) (now : ℤ) : Loan × Option LoanError :=
  match firstUnpaidIndex l.Schedule with
  | none => (l, some LoanError.ErrAlreadyPaid)
  | some k =>
    let w := l.Schedule.getD k default
    if amount ≠ w.Amount then (l, some LoanError.ErrWrongAmount)
    else
      ({ l with
          Schedule := l.Schedule.set k { w with Paid := true, PaidAt := some now },
          PaidCount := l.PaidCount + 1,
          Outstanding := l.Outstanding - amount }, none)

/-- WeekIndexAt from pkg/domain/loan.go: maps a time to a week index 1..50. -/
def WeekIndexAt (l : Loan) (now : ℤ) : ℤ :=
  if now < l.StartDate then 1
  else
    let daysSinceStart := (now - l.StartDate) / 86400
    let weekIndex := daysSinceStart / 7 + 1
    if weekIndex > 50 then 50 else weekIndex

/-- IsDelinquent from pkg/domain/loan.go.  Note that `week1Index` and
`week2Index` are used as 0-based array indices (so they address the 1-based
installments `observedWeek - 1` and `observedWeek`). -/
def IsDelinquent (l : Loan) (now : ℤ) : Bool × ℤ × ℤ :=
  let observedWeek := WeekIndexAt l now
  if observedWeek < 3 then (false, 0, observedWeek)
  else
    let week1Index := observedWeek - 2
    let week2Index := observedWeek - 1
    if 0 ≤ week1Index ∧ week1Index < 50 ∧ 0 ≤ week2Index ∧ week2Index < 50 then
      let week1Unpaid := !(l.Schedule.getD week1Index.toNat default).Paid
      let week2Unpaid := !(l.Schedule.getD week2Index.toNat default).Paid
      if week1Unpaid && week2Unpaid then (true, 2, observedWeek)
      else (false, 0, observedWeek)
    else (false, 0, observedWeek)

/-- Sum of the unpaid installment amounts of a schedule (the quantity
GetOutstanding recomputes). -/
def unpaidSum (s : List Week) : ℤ :=
  (s.map (fun w => if w.Paid then 0 else w.Amount)).sum

/-- State invariant of a loan: established by NewLoan and preserved by
MakePayment and GetOutstanding. -/
structure Inv (l : Loan) : Prop where
  len50 : l.Schedule.length = 50
  amounts : ∀ w ∈ l.Schedule, w.Amount = l.WeeklyDue
  count : l.PaidCount = l.Schedule.countP (fun w => w.Paid)
  outSum : l.Outstanding = unpaidSum l.Schedule
  total : 50 * l.WeeklyDue = goRound ((l.Principal : ℚ) * (1 + l.APR))
  paidIff : ∀ i, i < 50 → ((l.Schedule.getD i default).Paid ↔ i < l.PaidCount)

/-- Loan states reachable through the core operations: created by NewLoan and
transformed by any sequence of MakePayment calls (successful or failed; a
failed call returns the unchanged state) and GetOutstanding recomputations. -/
inductive Reachable : Loan → Prop where
  | created {id : String} {p : ℤ} {apr : ℚ} {d : ℤ} {l : Loan}
      (h : NewLoan id p apr d = Except.ok l) : Reachable l
  | pay {l : Loan} (a n : ℤ) (h : Reachable l) : Reachable (MakePayment l a n).1
  | recompute {l : Loan} (h : Reachable l) : Reachable (GetOutstanding l).1

/-- One state-mutating core operation (WeekIndexAt and IsDelinquent are
read-only and do not appear). -/
inductive LoanStep : Loan → Loan → Prop where
  | pay (l : Loan) (a n : ℤ) : LoanStep l (MakePayment l a n).1
  | recompute (l : Loan) : LoanStep l (GetOutstanding l).1

/-- Iterate MakePayment with a fixed amount; the Bool records whether every
call so far succeeded. -/
def payTimes (l : Loan) (amount now : ℤ) : ℕ → Loan × Bool
  | 0 => (l, true)
  | m + 1 =>
    let p := payTimes l amount now m
    let q := MakePayment p.1 amount now
    (q.1, p.2 && q.2.isNone)

/-- Service-layer errors (pkg/domain/loan_service.go maps them to
ValidationError / BusinessError records; the domain sentinel is preserved). -/
inductive ServiceError where
  | validation (msg : String)
  | business (msg : String)
  | domain (e : LoanError)
deriving DecidableEq

/-- CreateLoanRequest from pkg/domain/loan_service.go. -/
structure CreateLoanRequest where
  Principal : ℤ
  AnnualRate : ℚ
  StartDate : ℤ

/-- ValidateCreateLoanRequest from pkg/domain/loan_service.go. -/
def ValidateCreateLoanRequest (req : CreateLoanRequest) : Except String Unit :=
  if req.Principal ≤ 0 then Except.error "principal must be greater than 0"
  else if req.Principal > 5000000 then
    Except.error "principal exceeds maximum allowed limit"
  else if req.AnnualRate < 0 then Except.error "annual rate cannot be negative"
  else if req.AnnualRate > 1/2 then
    Except.error "annual rate exceeds maximum allowed limit"
  else Except.ok ()

/-- CreateLoan (service) from pkg/domain/loan_service.go: validate, then call
the core NewLoan. -/
def CreateLoan (id : String) (req : CreateLoanRequest) : Except ServiceError Loan :=
  match ValidateCreateLoanRequest req with
  | Except.error e => Except.error (ServiceError.validation e)
  | Except.ok _ =>
    match NewLoan id req.Principal req.AnnualRate req.StartDate with
    | Except.error e => Except.error (ServiceError.domain e)
    | Except.ok l => Except.ok l

/-- CreateLoanFromRequest from pkg/domain/loan_service.go, lines 50-95.  The
`time.Parse` of the start-date string and the time-based `generateLoanID` are
externalized: the function takes the already-parsed date and the generated id.
The body defaults a zero annual rate to 0.10, validates, and calls CreateLoan
(which validates again and calls NewLoan); `convertLoanToResponse` copies every
loan field verbatim, so the produced Loan itself is returned. -/
def CreateLoanFromRequest (id : String) (principal : ℤ) (annualRate : ℚ)
    (startDate : ℤ) : Except ServiceError Loan :=
  let rate := if annualRate = 0 then 1/10 else annualRate
  let req : CreateLoanRequest := ⟨principal, rate, startDate⟩
  match ValidateCreateLoanRequest req with
  | Except.error e => Except.error (ServiceError.validation e)
  | Except.ok _ => CreateLoan id req

/-- PaymentResponse from pkg/domain/loan_service.go. -/
structure PaymentResponse where
  PaidWeek : ℤ
  RemainingOutstanding : ℤ
deriving DecidableEq

/-- ProcessPaymentFromRequest from pkg/domain/loan_service.go: validates the
amount, records the 1-based index of the first unpaid week, makes the payment,
then recomputes the outstanding balance via GetOutstanding. -/
def ProcessPaymentFromRequest (l : Loan) (amount now : ℤ) :
    Loan × Except ServiceError PaymentResponse :=
  if amount ≤ 0 then
    (l, Except.error (ServiceError.validation "payment amount must be greater than 0"))
  else
    match firstUnpaidIndex l.Schedule with
    | none => (l, Except.error (ServiceError.business "No unpaid weeks found"))
    | some k =>
      match MakePayment l amount now with
      | (l1, none) =>
        let r := GetOutstanding l1
        (r.1, Except.ok ⟨(k : ℤ) + 1, r.2⟩)
      | (l1, some e) => (l1, Except.error (ServiceError.domain e))

/-- Unix seconds of 2025-08-01T00:00:00Z (day 20301 since the epoch). -/
def aug1s : ℤ := 20301 * 86400

/-- Unix seconds of 2025-08-07T00:00:00Z. -/
def aug7s : ℤ := 20307 * 86400

/-- Unix seconds of 2025-08-08T00:00:00Z. -/
def aug8s : ℤ := 20308 * 86400

/-- Unix seconds of 2025-08-14T00:00:00Z. -/
def aug14s : ℤ := 20314 * 86400

/-- Unix seconds of 2025-08-15T00:00:00Z. -/
def aug15s : ℤ := 20315 * 86400

/-- The loan of the spec's concrete scenario: principal 5000000, rate 0.10,
start date 2025-08-15 (value of `NewLoan "L1" 5000000 (1/10) aug15s`). -/
def loanL1 : Loan :=
  ⟨"L1", 5000000, 1/10, aug15s, 110000, freshSchedule 110000, 0, 5500000⟩

/-- Same loan but started 2025-08-01 (value of `NewLoan "L1" 5000000 (1/10) aug1s`),
used for the delinquency-boundary examples. -/
def loanAug1 : Loan :=
  ⟨"L1", 5000000, 1/10, aug1s, 110000, freshSchedule 110000, 0, 5500000⟩

/-- `loanAug1` after one successful weekly payment (installment 1 paid). -/
def loanPaid1 : Loan := (MakePayment loanAug1 110000 aug8s).1

/-- Modelled from the words of claim C1 (for refinement comparison only): the
delinquency evaluator as the claim states it, inspecting the installments at
1-based indices `observedWeek - 2` and `observedWeek - 1`, i.e. 0-based
schedule positions `observedWeek - 3` and `observedWeek - 2`. -/
def isDelinquentClaimC1 (l : Loan) (now : ℤ) : Bool × ℤ × ℤ :=
  let observedWeek := WeekIndexAt l now
  if observedWeek < 3 then (false, 0, observedWeek)
  else
    if (l.Schedule.getD (observedWeek - 3).toNat default).Paid = false ∧
       (l.Schedule.getD (observedWeek - 2).toNat default).Paid = false then
      (true, 2, observedWeek)
    else (false, 0, observedWeek)

theorem getD_set_ne {s : List Week} {i k : ℕ} (b : Week) (h : i ≠ k) :
    (s.set k b).getD i default = s.getD i default := by
  simp [List.getD, List.getElem?_set_ne (Ne.symm h)]

theorem getD_set_self {s : List Week} {k : ℕ} (b : Week) (h : k < s.length) :
    (s.set k b).getD k default = b := by
  simp [List.getD, List.getElem?_set_self, h]

theorem getD_mem {s : List Week} {i : ℕ} (h : i < s.length) :
    s.getD i default ∈ s := by
  rw [List.getD_eq_getElem s default h]
  exact List.getElem_mem h

theorem firstUnpaid_none_iff {s : List Week} :
    firstUnpaidIndex s = none ↔ ∀ w ∈ s, w.Paid = true := by
  induction s with
  | nil => simp [firstUnpaidIndex]
  | cons w rest ih =>
    by_cases hw : w.Paid
    · simp [firstUnpaidIndex, hw, Option.map_eq_none', ih]
    · simp [firstUnpaidIndex, hw]

theorem firstUnpaid_lt {s : List Week} {k : ℕ}
    (h : firstUnpaidIndex s = some k) : k < s.length := by
  induction s generalizing k with
  | nil => simp [firstUnpaidIndex] at h
  | cons w rest ih =>
    by_cases hw : w.Paid
    · simp only [firstUnpaidIndex, hw, if_pos, Option.map_eq_some'] at h
      obtain ⟨k', hk', rfl⟩ := h
      have := ih hk'
      simp only [List.length_cons]
      omega
    · simp [firstUnpaidIndex, hw] at h
      simp only [List.length_cons]
      omega

theorem firstUnpaid_unpaid {s : List Week} {k : ℕ}
    (h : firstUnpaidIndex s = some k) : (s.getD k default).Paid = false := by
  induction s generalizing k with
  | nil => simp [firstUnpaidIndex] at h
  | cons w rest ih =>
    by_cases hw : w.Paid
    · simp only [firstUnpaidIndex, hw, if_pos, Option.map_eq_some'] at h
      obtain ⟨k', hk', rfl⟩ := h
      simpa [List.getD_cons_succ] using ih hk'
    · simp [firstUnpaidIndex, hw] at h
      have hk0 : k = 0 := by omega
      subst hk0
      simpa [List.getD_cons_zero] using hw

theorem firstUnpaid_before {s : List Week} {k : ℕ}
    (h : firstUnpaidIndex s = some k) :
    ∀ j, j < k → (s.getD j default).Paid = true := by
  induction s generalizing k with
  | nil => simp [firstUnpaidIndex] at h
  | cons w rest ih =>
    by_cases hw : w.Paid
    · simp only [firstUnpaidIndex, hw, if_pos, Option.map_eq_some'] at h
      obtain ⟨k', hk', rfl⟩ := h
      intro j hj
      cases j with
      | zero => simpa [List.getD_cons_zero] using hw
      | succ j =>
        simpa [List.getD_cons_succ] using ih hk' j (by omega)
    · simp [firstUnpaidIndex, hw] at h
      intro j hj
      omega

theorem countP_set_paid {s : List Week} {k : ℕ} {b : Week}
    (hk : k < s.length) (hold : (s.getD k default).Paid = false)
    (hb : b.Paid = true) :
    (s.set k b).countP (fun w => w.Paid) = s.countP (fun w => w.Paid) + 1 := by
  induction s generalizing k with
  | nil => simp at hk
  | cons w rest ih =>
    cases k with
    | zero =>
      simp only [List.getD_cons_zero] at hold
      simp [List.set, List.countP_cons, hold, hb]
    | succ k =>
      simp only [List.getD_cons_succ] at hold
      have hk' : k < rest.length := by simpa [List.length_cons] using hk
      simp only [List.set, List.countP_cons]
      rw [ih hk' hold]
      omega

theorem unpaidSum_nil : unpaidSum [] = 0 := rfl

theorem unpaidSum_cons (w : Week) (s : List Week) :
    unpaidSum (w :: s) = (if w.Paid then 0 else w.Amount) + unpaidSum s := by
  simp [unpaidSum]

theorem unpaidSum_set_paid {s : List Week} {k : ℕ} {b : Week}
    (hk : k < s.length) (hold : (s.getD k default).Paid = false)
    (hb : b.Paid = true) :
    unpaidSum (s.set k b) = unpaidSum s - (s.getD k default).Amount := by
  induction s generalizing k with
  | nil => simp at hk
  | cons w rest ih =>
    cases k with
    | zero =>
      simp only [List.getD_cons_zero] at hold ⊢
      simp [List.set, unpaidSum_cons, hold, hb]
    | succ k =>
      simp only [List.getD_cons_succ] at hold ⊢
      have hk' : k < rest.length := by simpa [List.length_cons] using hk
      simp only [List.set, unpaidSum_cons]
      rw [ih hk' hold]
      ring

theorem unpaidSum_allW {s : List Week} {W : ℤ}
    (hA : ∀ w ∈ s, w.Amount = W) :
    unpaidSum s = ((s.length : ℤ) - s.countP (fun w => w.Paid)) * W := by
  induction s with
  | nil => simp [unpaidSum]
  | cons w rest ih =>
    have hw : w.Amount = W := hA w (by simp)
    have ih' := ih (fun x hx => hA x (by simp [hx]))
    by_cases hp : w.Paid
    · rw [unpaidSum_cons, if_pos hp, ih']
      simp only [List.length_cons, List.countP_cons, hp]
      push_cast
      ring
    · rw [unpaidSum_cons, if_neg hp, ih', hw]
      simp only [List.length_cons, List.countP_cons, hp]
      push_cast
      ring

theorem foldl_unpaid (s : List Week) : ∀ acc : ℤ,
    s.foldl (fun acc w => if !w.Paid then acc + w.Amount else acc) acc =
      acc + unpaidSum s := by
  induction s with
  | nil => intro acc; simp [unpaidSum]
  | cons w rest ih =>
    intro acc
    rw [List.foldl_cons, ih, unpaidSum_cons]
    by_cases hp : w.Paid
    · rw [if_neg (by simp [hp]), if_pos hp]
      ring
    · rw [if_pos (by simp [hp]), if_neg hp]
      ring

theorem makePayment_spec (l : Loan) (a n : ℤ) :
    (firstUnpaidIndex l.Schedule = none ∧
      MakePayment l a n = (l, some LoanError.ErrAlreadyPaid)) ∨
    (∃ k, firstUnpaidIndex l.Schedule = some k ∧
      ((a ≠ (l.Schedule.getD k default).Amount ∧
        MakePayment l a n = (l, some LoanError.ErrWrongAmount)) ∨
       (a = (l.Schedule.getD k default).Amount ∧
        MakePayment l a n =
          ({ l with
              Schedule := l.Schedule.set k
                { l.Schedule.getD k default with Paid := true, PaidAt := some n },
              PaidCount := l.PaidCount + 1,
              Outstanding := l.Outstanding - a }, none)))) := by
  unfold MakePayment
  cases h : firstUnpaidIndex l.Schedule with
  | none => exact Or.inl ⟨rfl, rfl⟩
  | some k =>
    refine Or.inr ⟨k, rfl, ?_⟩
    by_cases ha : a = (l.Schedule.getD k default).Amount
    · refine Or.inr ⟨ha, ?_⟩
      dsimp only
      rw [if_neg (fun hne => hne ha)]
    · refine Or.inl ⟨ha, ?_⟩
      dsimp only
      rw [if_pos ha]

theorem freshSchedule_length (W : ℤ) : (freshSchedule W).length = 50 := by
  simp [freshSchedule]

theorem freshSchedule_mem {W : ℤ} {w : Week} (hw : w ∈ freshSchedule W) :
    w.Amount = W ∧ w.Paid = false := by
  simp only [freshSchedule, List.mem_map, List.mem_range] at hw
  obtain ⟨i, _, rfl⟩ := hw
  exact ⟨rfl, rfl⟩

theorem freshSchedule_countP (W : ℤ) :
    (freshSchedule W).countP (fun w => w.Paid) = 0 := by
  rw [List.countP_eq_zero]
  intro w hw
  simp [(freshSchedule_mem hw).2]

theorem ok_of_newLoan {id : String} {p : ℤ} {apr : ℚ} {d : ℤ} {l : Loan}
    (h : NewLoan id p apr d = Except.ok l) :
    0 < p ∧ 0 ≤ apr ∧ goRound ((p : ℚ) * (1 + apr)) % 50 = 0 ∧
    l = { ID := id, Principal := p, APR := apr, StartDate := d,
          WeeklyDue := goRound ((p : ℚ) * (1 + apr)) / 50,
          Schedule := freshSchedule (goRound ((p : ℚ) * (1 + apr)) / 50),
          PaidCount := 0, Outstanding := goRound ((p : ℚ) * (1 + apr)) } := by
  unfold NewLoan at h
  by_cases h1 : p ≤ 0
  · rw [if_pos h1] at h; exact absurd h (by simp)
  rw [if_neg h1] at h
  by_cases h2 : apr < 0
  · rw [if_pos h2] at h; exact absurd h (by simp)
  rw [if_neg h2] at h
  dsimp only at h
  by_cases h3 : goRound ((p : ℚ) * (1 + apr)) % 50 ≠ 0
  · rw [if_pos h3] at h; exact absurd h (by simp)
  rw [if_neg h3] at h
  exact ⟨by omega, not_lt.mp h2, not_ne_iff.mp h3, (Except.ok.inj h).symm⟩

theorem inv_created {id : String} {p : ℤ} {apr : ℚ} {d : ℤ} {l : Loan}
    (h : NewLoan id p apr d = Except.ok l) : Inv l := by
  obtain ⟨hp, hapr, hdiv, rfl⟩ := ok_of_newLoan h
  have hdvd : (50 : ℤ) ∣ goRound ((p : ℚ) * (1 + apr)) :=
    Int.dvd_of_emod_eq_zero hdiv
  have h50 : 50 * (goRound ((p : ℚ) * (1 + apr)) / 50) =
      goRound ((p : ℚ) * (1 + apr)) := Int.mul_ediv_cancel' hdvd
  have hA : ∀ w ∈ freshSchedule (goRound ((p : ℚ) * (1 + apr)) / 50),
      w.Amount = goRound ((p : ℚ) * (1 + apr)) / 50 :=
    fun w hw => (freshSchedule_mem hw).1
  constructor
  · exact freshSchedule_length _
  · exact hA
  · exact (freshSchedule_countP _).symm
  · show goRound ((p : ℚ) * (1 + apr)) = _
    rw [unpaidSum_allW hA, freshSchedule_countP, freshSchedule_length]
    push_cast
    linear_combination -h50
  · show 50 * (goRound ((p : ℚ) * (1 + apr)) / 50) = _
    exact h50
  · intro i hi
    have hlen : i < (freshSchedule (goRound ((p : ℚ) * (1 + apr)) / 50)).length := by
      rw [freshSchedule_length]; exact hi
    have hmem := getD_mem hlen
    have hpf := (freshSchedule_mem hmem).2
    constructor
    · intro hp2
      have hx : ((freshSchedule (goRound ((p : ℚ) * (1 + apr)) / 50)).getD i
          default).Paid = true := hp2
      rw [hpf] at hx
      exact Bool.noConfusion hx
    · intro hlt
      have hx : i < 0 := hlt
      omega

theorem firstUnpaid_eq_paidCount {l : Loan} {k : ℕ} (hI : Inv l)
    (hk : firstUnpaidIndex l.Schedule = some k) : k = l.PaidCount := by
  have hkl : k < l.Schedule.length := firstUnpaid_lt hk
  have hk50 : k < 50 := by rw [hI.len50] at hkl; exact hkl
  have hunp : (l.Schedule.getD k default).Paid = false := firstUnpaid_unpaid hk
  have h1 : ¬ k < l.PaidCount := by
    intro hlt
    have ht := (hI.paidIff k hk50).mpr hlt
    rw [ht] at hunp
    exact Bool.noConfusion hunp
  have h2 : ¬ l.PaidCount < k := by
    intro hlt
    have hp2 := firstUnpaid_before hk l.PaidCount hlt
    have := (hI.paidIff l.PaidCount (by omega)).mp (by rw [hp2])
    omega
  omega

theorem inv_pay {l : Loan} (a n : ℤ) (hI : Inv l) : Inv (MakePayment l a n).1 := by
  rcases makePayment_spec l a n with ⟨_, heq⟩ | ⟨k, hk, ⟨_, heq⟩ | ⟨ha, heq⟩⟩
  · rw [heq]; exact hI
  · rw [heq]; exact hI
  · rw [heq]
    dsimp only
    have hkl : k < l.Schedule.length := firstUnpaid_lt hk
    have hk50 : k < 50 := by rw [hI.len50] at hkl; exact hkl
    have hunp : (l.Schedule.getD k default).Paid = false := firstUnpaid_unpaid hk
    have hkc : k = l.PaidCount := firstUnpaid_eq_paidCount hI hk
    constructor
    · simp [List.length_set, hI.len50]
    · intro w hw
      rcases List.mem_or_eq_of_mem_set hw with hmem | rfl
      · exact hI.amounts w hmem
      · exact hI.amounts (l.Schedule.getD k default) (getD_mem hkl)
    · show l.PaidCount + 1 = _
      rw [countP_set_paid hkl hunp rfl, ← hI.count]
    · show l.Outstanding - a = _
      rw [unpaidSum_set_paid hkl hunp rfl, ← hI.outSum, ha]
    · exact hI.total
    · intro i hi
      dsimp only
      by_cases hik : i = k
      · subst hik
        rw [getD_set_self _ hkl]
        constructor
        · intro _
          omega
        · intro _
          rfl
      · rw [getD_set_ne _ hik, hI.paidIff i hi]
        omega

theorem inv_out {l : Loan} (hI : Inv l) : Inv (GetOutstanding l).1 := by
  unfold GetOutstanding
  dsimp only
  have ho : l.Schedule.foldl
      (fun acc w => if !w.Paid then acc + w.Amount else acc) 0 =
      unpaidSum l.Schedule := by
    rw [foldl_unpaid]; ring
  exact ⟨hI.len50, hI.amounts, hI.count, ho, hI.total, hI.paidIff⟩

theorem inv_reachable {l : Loan} (h : Reachable l) : Inv l := by
  induction h with
  | created h => exact inv_created h
  | pay a n _ ih => exact inv_pay a n ih
  | recompute _ ih => exact inv_out ih

theorem conservation_of_inv {l : Loan} (hI : Inv l) :
    l.Outstanding + (l.PaidCount : ℤ) * l.WeeklyDue =
      goRound ((l.Principal : ℚ) * (1 + l.APR)) := by
  have h2 := unpaidSum_allW hI.amounts
  rw [hI.len50, ← hI.count] at h2
  rw [hI.outSum, h2]
  push_cast
  linear_combination hI.total

/-- C3: for every loan produced by createLoan and after every sequence of
core operations (applyPayment calls, successful or failed, and outstanding
recomputations), `outstanding + paidCount * weeklyDue = totalDue`, where
`totalDue = round(principal * (1 + annualRate))`. -/
theorem conservation_reachable (l : Loan) (h : Reachable l) :
    l.Outstanding + (l.PaidCount : ℤ) * l.WeeklyDue =
      goRound ((l.Principal : ℚ) * (1 + l.APR)) :=
  conservation_of_inv (inv_reachable h)

theorem goRound_L1 : goRound (((5000000 : ℤ) : ℚ) * (1 + 1/10)) = 5500000 := by
  have hq : (((5000000 : ℤ) : ℚ) * (1 + 1/10)) = 5500000 := by norm_num
  rw [hq]
  unfold goRound
  rw [if_neg (by norm_num)]
  norm_num

theorem newLoan_L1 : NewLoan "L1" 5000000 (1/10) aug15s = Except.ok loanL1 := by
  unfold NewLoan
  rw [if_neg (by norm_num), if_neg (by norm_num)]
  dsimp only
  rw [goRound_L1]
  rw [if_neg (by norm_num)]
  norm_num [loanL1]

theorem newLoan_aug1 : NewLoan "L1" 5000000 (1/10) aug1s = Except.ok loanAug1 := by
  unfold NewLoan
  rw [if_neg (by norm_num), if_neg (by norm_num)]
  dsimp only
  rw [goRound_L1]
  rw [if_neg (by norm_num)]
  norm_num [loanAug1]

/-- C2: for every id, positive principal and non-negative annualRate,
createLoan succeeds exactly when `round(principal * (1 + annualRate))` is
divisible by 50; on success `weeklyDue * 50 = totalDue` and each of the 50
installments has amount `weeklyDue` and `paid = false`; otherwise it fails
with the distinct unsupported-product error and no loan is produced. -/
theorem newLoan_divisibility (id : String) (p : ℤ) (apr : ℚ) (d : ℤ)
    (hp : 0 < p) (hapr : 0 ≤ apr) :
    (goRound ((p : ℚ) * (1 + apr)) % 50 = 0 →
      ∃ l, NewLoan id p apr d = Except.ok l ∧
        l.WeeklyDue * 50 = goRound ((p : ℚ) * (1 + apr)) ∧
        l.Schedule.length = 50 ∧
        (∀ w ∈ l.Schedule, w.Amount = l.WeeklyDue ∧ w.Paid = false)) ∧
    (goRound ((p : ℚ) * (1 + apr)) % 50 ≠ 0 →
      NewLoan id p apr d = Except.error LoanError.ErrUnsupportedProduct) := by
  constructor
  · intro hdiv
    have heq : NewLoan id p apr d = Except.ok
        { ID := id, Principal := p, APR := apr, StartDate := d,
          WeeklyDue := goRound ((p : ℚ) * (1 + apr)) / 50,
          Schedule := freshSchedule (goRound ((p : ℚ) * (1 + apr)) / 50),
          PaidCount := 0, Outstanding := goRound ((p : ℚ) * (1 + apr)) } := by
      unfold NewLoan
      rw [if_neg (by omega), if_neg (not_lt.mpr hapr)]
      dsimp only
      rw [if_neg (not_ne_iff.mpr hdiv)]
    refine ⟨_, heq, ?_, freshSchedule_length _, ?_⟩
    · exact Int.ediv_mul_cancel (Int.dvd_of_emod_eq_zero hdiv)
    · intro w hw
      exact freshSchedule_mem hw
  · intro hdiv
    unfold NewLoan
    rw [if_neg (by omega), if_neg (not_lt.mpr hapr)]
    dsimp only
    rw [if_pos hdiv]

/-- Witness for C2 at id "L1", principal 5000000, rate 1/10, start date 0. -/
theorem newLoan_divisibility_witness :
    ∃ l, NewLoan "L1" 5000000 (1/10) 0 = Except.ok l ∧
      l.WeeklyDue * 50 = goRound (((5000000 : ℤ) : ℚ) * (1 + 1/10)) ∧
      l.Schedule.length = 50 ∧
      (∀ w ∈ l.Schedule, w.Amount = l.WeeklyDue ∧ w.Paid = false) :=
  (newLoan_divisibility "L1" 5000000 (1/10) 0 (by norm_num) (by norm_num)).1
    (by rw [goRound_L1]; decide)

/-- C5: applyPayment fails with already-paid exactly when all 50 installments
are paid, fails with wrong-amount exactly when some installment is unpaid and
the amount differs from the first unpaid installment's amount, and in both
failure cases the loan state is entirely unchanged. -/
theorem makePayment_error_cases (l : Loan) (a n : ℤ) :
    ((MakePayment l a n).2 = some LoanError.ErrAlreadyPaid ↔
      ∀ w ∈ l.Schedule, w.Paid = true) ∧
    ((MakePayment l a n).2 = some LoanError.ErrWrongAmount ↔
      ∃ k, firstUnpaidIndex l.Schedule = some k ∧
        a ≠ (l.Schedule.getD k default).Amount) ∧
    (∀ e, (MakePayment l a n).2 = some e → (MakePayment l a n).1 = l) := by
  rcases makePayment_spec l a n with ⟨hnone, heq⟩ | ⟨k, hk, ⟨ha, heq⟩ | ⟨ha, heq⟩⟩
  · rw [heq]
    refine ⟨⟨fun _ => firstUnpaid_none_iff.mp hnone, fun _ => rfl⟩, ?_, fun e _ => rfl⟩
    constructor
    · intro habs
      exact absurd (Option.some.inj habs) (by simp)
    · rintro ⟨k, hk, -⟩
      rw [hnone] at hk
      exact Option.noConfusion hk
  · rw [heq]
    refine ⟨?_, ⟨fun _ => ⟨k, hk, ha⟩, fun _ => rfl⟩, fun e _ => rfl⟩
    constructor
    · intro habs
      exact absurd (Option.some.inj habs) (by simp)
    · intro hall
      rw [firstUnpaid_none_iff.mpr hall] at hk
      exact Option.noConfusion hk
  · rw [heq]
    refine ⟨?_, ?_, fun e habs => Option.noConfusion habs⟩
    · constructor
      · intro habs
        exact Option.noConfusion habs
      · intro hall
        rw [firstUnpaid_none_iff.mpr hall] at hk
        exact Option.noConfusion hk
    · constructor
      · intro habs
        exact Option.noConfusion habs
      · rintro ⟨k', hk', ha'⟩
        rw [hk] at hk'
        rw [← Option.some.inj hk'] at ha'
        exact absurd ha ha'

/-- Witness for C5: the wrong-amount characterization evaluated on the fresh
scenario loan with an underpayment of 100000. -/
theorem makePayment_error_cases_witness :
    (MakePayment loanL1 100000 0).2 = some LoanError.ErrWrongAmount ↔
      ∃ k, firstUnpaidIndex loanL1.Schedule = some k ∧
        (100000 : ℤ) ≠ (loanL1.Schedule.getD k default).Amount :=
  (makePayment_error_cases loanL1 100000 0).2.1

/-- C6: a successful applyPayment marks paid exactly the installment with the
smallest unpaid index, the service response reports that 1-based index, and on
every reachable loan the paid flags are downward closed (no installment is
paid while an earlier one is unpaid). -/
theorem makePayment_fifo :
    (∀ (l : Loan) (a n : ℤ), (MakePayment l a n).2 = none →
      ∃ k, firstUnpaidIndex l.Schedule = some k ∧
        (l.Schedule.getD k default).Paid = false ∧
        (∀ j, j < k → (l.Schedule.getD j default).Paid = true) ∧
        (MakePayment l a n).1.Schedule =
          l.Schedule.set k
            { l.Schedule.getD k default with Paid := true, PaidAt := some n } ∧
        (∀ r, (ProcessPaymentFromRequest l a n).2 = Except.ok r →
          r.PaidWeek = (k : ℤ) + 1)) ∧
    (∀ l, Reachable l → ∀ i j, i ≤ j → j < l.Schedule.length →
      (l.Schedule.getD j default).Paid = true →
      (l.Schedule.getD i default).Paid = true) := by
  constructor
  · intro l a n hsucc
    rcases makePayment_spec l a n with ⟨hnone, heq⟩ | ⟨k, hk, ⟨ha, heq⟩ | ⟨ha, heq⟩⟩
    · rw [heq] at hsucc
      exact Option.noConfusion hsucc
    · rw [heq] at hsucc
      exact Option.noConfusion hsucc
    · refine ⟨k, hk, firstUnpaid_unpaid hk, firstUnpaid_before hk, ?_, ?_⟩
      · rw [heq]
      · intro r hr
        by_cases ha0 : a ≤ 0
        · unfold ProcessPaymentFromRequest at hr
          rw [if_pos ha0] at hr
          exact absurd hr (by simp)
        · unfold ProcessPaymentFromRequest at hr
          rw [if_neg ha0, hk] at hr
          dsimp only at hr
          rw [heq] at hr
          dsimp only at hr
          rw [← Except.ok.inj hr]
  · intro l hR i j hij hj hpj
    have hI := inv_reachable hR
    have hj50 : j < 50 := by rw [hI.len50] at hj; exact hj
    have hjc := (hI.paidIff j hj50).mp (by rw [hpj])
    exact (hI.paidIff i (by omega)).mpr (by omega)

/-- Witness for C6: the FIFO shape of the first successful payment on the
fresh scenario loan. -/
theorem makePayment_fifo_witness :
    ∃ k, firstUnpaidIndex loanL1.Schedule = some k ∧
      (loanL1.Schedule.getD k default).Paid = false ∧
      (∀ j, j < k → (loanL1.Schedule.getD j default).Paid = true) ∧
      (MakePayment loanL1 110000 0).1.Schedule =
        loanL1.Schedule.set k
          { loanL1.Schedule.getD k default with Paid := true, PaidAt := some 0 } ∧
      (∀ r, (ProcessPaymentFromRequest loanL1 110000 0).2 = Except.ok r →
        r.PaidWeek = (k : ℤ) + 1) :=
  makePayment_fifo.1 loanL1 110000 0 (by rfl)

theorem loanStep_mono {l l' : Loan} (h : LoanStep l l') :
    l.PaidCount ≤ l'.PaidCount ∧ l'.Schedule.length = l.Schedule.length ∧
    (∀ i, i < l.Schedule.length → (l.Schedule.getD i default).Paid = true →
      l'.Schedule.getD i default = l.Schedule.getD i default) := by
  cases h with
  | pay a n =>
    rcases makePayment_spec l a n with ⟨hnone, heq⟩ | ⟨k, hk, ⟨ha, heq⟩ | ⟨ha, heq⟩⟩
    · rw [heq]
      exact ⟨le_refl _, rfl, fun i _ _ => rfl⟩
    · rw [heq]
      exact ⟨le_refl _, rfl, fun i _ _ => rfl⟩
    · rw [heq]
      dsimp only
      have hunp := firstUnpaid_unpaid hk
      refine ⟨by omega, by simp [List.length_set], ?_⟩
      intro i hi hp2
      have hik : i ≠ k := by
        intro he
        rw [← he, hp2] at hunp
        exact Bool.noConfusion hunp
      exact getD_set_ne _ hik
  | recompute =>
    exact ⟨le_refl _, rfl, fun i _ _ => rfl⟩

/-- C7: across every sequence of core operations, paidCount is non-decreasing
and a paid installment is never modified again (its flag never reverts and its
paidAt never changes); when an installment transitions from unpaid to paid its
paidAt is set to the payment time. -/
theorem paid_monotone :
    (∀ l l', Relation.ReflTransGen LoanStep l l' →
      l.PaidCount ≤ l'.PaidCount ∧ l'.Schedule.length = l.Schedule.length ∧
      (∀ i, i < l.Schedule.length → (l.Schedule.getD i default).Paid = true →
        l'.Schedule.getD i default = l.Schedule.getD i default)) ∧
    (∀ (l : Loan) (a n : ℤ) (i : ℕ), i < l.Schedule.length →
      (l.Schedule.getD i default).Paid = false →
      ((MakePayment l a n).1.Schedule.getD i default).Paid = true →
      ((MakePayment l a n).1.Schedule.getD i default).PaidAt = some n) := by
  constructor
  · intro l l' h
    induction h with
    | refl => exact ⟨le_refl _, rfl, fun i _ _ => rfl⟩
    | @tail b c hab hbc ih =>
      obtain ⟨m1, len1, pres1⟩ := ih
      obtain ⟨m2, len2, pres2⟩ := loanStep_mono hbc
      refine ⟨le_trans m1 m2, by omega, ?_⟩
      intro i hi hp2
      have e1 := pres1 i hi hp2
      have hib : i < b.Schedule.length := by omega
      have hpb : (b.Schedule.getD i default).Paid = true := by rw [e1]; exact hp2
      rw [pres2 i hib hpb, e1]
  · intro l a n i hi hfalse htrue
    rcases makePayment_spec l a n with ⟨hnone, heq⟩ | ⟨k, hk, ⟨ha, heq⟩ | ⟨ha, heq⟩⟩
    · rw [heq] at htrue
      dsimp only at htrue
      rw [htrue] at hfalse
      exact Bool.noConfusion hfalse
    · rw [heq] at htrue
      dsimp only at htrue
      rw [htrue] at hfalse
      exact Bool.noConfusion hfalse
    · rw [heq]
      dsimp only
      rw [heq] at htrue
      dsimp only at htrue
      by_cases hik : i = k
      · subst hik
        rw [getD_set_self _ (firstUnpaid_lt hk)]
      · rw [getD_set_ne _ hik] at htrue
        rw [htrue] at hfalse
        exact Bool.noConfusion hfalse

/-- Witness for C7: monotonicity along the one-payment sequence from the
boundary loan to `loanPaid1`. -/
theorem paid_monotone_witness :
    loanAug1.PaidCount ≤ loanPaid1.PaidCount ∧
    loanPaid1.Schedule.length = loanAug1.Schedule.length ∧
    (∀ i, i < loanAug1.Schedule.length →
      (loanAug1.Schedule.getD i default).Paid = true →
      loanPaid1.Schedule.getD i default = loanAug1.Schedule.getD i default) :=
  paid_monotone.1 loanAug1 loanPaid1
    (Relation.ReflTransGen.single (LoanStep.pay loanAug1 110000 aug8s))

theorem weekIndexAt_ge_one (l : Loan) (now : ℤ) : 1 ≤ WeekIndexAt l now := by
  unfold WeekIndexAt
  dsimp only
  split_ifs <;> omega

theorem weekIndexAt_le_fifty (l : Loan) (now : ℤ) : WeekIndexAt l now ≤ 50 := by
  unfold WeekIndexAt
  dsimp only
  split_ifs <;> omega

/-- C8: before the start date the observed week is 1 and the result is
`(false, 0, 1)`; otherwise the observed week is `floor(days/7) + 1` clamped to
50, and it always lies in 1..50 however far past the term `now` is. -/
theorem weekIndexAt_spec (l : Loan) (now : ℤ) :
    (now < l.StartDate →
      WeekIndexAt l now = 1 ∧ IsDelinquent l now = (false, 0, 1)) ∧
    (l.StartDate ≤ now →
      WeekIndexAt l now =
        min (((now - l.StartDate).toNat / 86400 / 7 + 1 : ℕ) : ℤ) 50) ∧
    1 ≤ WeekIndexAt l now ∧ WeekIndexAt l now ≤ 50 := by
  refine ⟨?_, ?_, weekIndexAt_ge_one l now, weekIndexAt_le_fifty l now⟩
  · intro h
    have h1 : WeekIndexAt l now = 1 := by
      unfold WeekIndexAt
      rw [if_pos h]
    refine ⟨h1, ?_⟩
    unfold IsDelinquent
    dsimp only
    rw [h1]
    rw [if_pos (by norm_num)]
  · intro h
    unfold WeekIndexAt
    rw [if_neg (not_lt.mpr h)]
    dsimp only
    split_ifs with h2 <;> omega

/-- Witness for C8: the before-start branch one second before the start date,
and the clamp formula at 2025-08-15 on the boundary loan. -/
theorem weekIndexAt_spec_witness :
    (WeekIndexAt loanAug1 (aug1s - 1) = 1 ∧
      IsDelinquent loanAug1 (aug1s - 1) = (false, 0, 1)) ∧
    WeekIndexAt loanAug1 aug15s =
      min (((aug15s - loanAug1.StartDate).toNat / 86400 / 7 + 1 : ℕ) : ℤ) 50 :=
  ⟨(weekIndexAt_spec loanAug1 (aug1s - 1)).1 (by decide),
   (weekIndexAt_spec loanAug1 aug15s).2.1 (by decide)⟩

/-- C1 (amended): for observedWeek ≥ 3 the evaluator inspects the installments
at 0-based schedule positions `observedWeek - 2` and `observedWeek - 1`, that
is the 1-based installments `observedWeek - 1` and `observedWeek` (not the
1-based installments `observedWeek - 2` and `observedWeek - 1` as the claim
stated), returning `(true, 2, observedWeek)` when both are unpaid and
`(false, 0, observedWeek)` otherwise; for observedWeek < 3 it returns
`(false, 0, observedWeek)`; the three boundary examples of the claim hold. -/
theorem isDelinquent_latest_two :
    (∀ (l : Loan) (now : ℤ), 3 ≤ WeekIndexAt l now →
      IsDelinquent l now =
        (if (l.Schedule.getD (WeekIndexAt l now - 2).toNat default).Paid = false ∧
            (l.Schedule.getD (WeekIndexAt l now - 1).toNat default).Paid = false
         then (true, 2, WeekIndexAt l now)
         else (false, 0, WeekIndexAt l now))) ∧
    (∀ (l : Loan) (now : ℤ), WeekIndexAt l now < 3 →
      IsDelinquent l now = (false, 0, WeekIndexAt l now)) ∧
    IsDelinquent loanAug1 aug7s = (false, 0, 1) ∧
    IsDelinquent loanAug1 aug14s = (false, 0, 2) ∧
    IsDelinquent loanAug1 aug15s = (true, 2, 3) := by
  refine ⟨?_, ?_, by decide, by decide, by decide⟩
  · intro l now h3
    have h50 := weekIndexAt_le_fifty l now
    unfold IsDelinquent
    dsimp only
    rw [if_neg (by omega)]
    rw [if_pos (by refine ⟨by omega, by omega, by omega, by omega⟩)]
    by_cases hb : (l.Schedule.getD (WeekIndexAt l now - 2).toNat default).Paid = false ∧
        (l.Schedule.getD (WeekIndexAt l now - 1).toNat default).Paid = false
    · rw [if_pos hb, if_pos]
      simp only [Bool.and_eq_true, Bool.not_eq_true']
      exact hb
    · rw [if_neg hb, if_neg]
      simp only [Bool.and_eq_true, Bool.not_eq_true']
      exact hb
  · intro l now h3
    unfold IsDelinquent
    dsimp only
    rw [if_pos h3]

/-- Witness for C1's amended theorem: the window shape evaluated at week 3 on
the loan with installment 1 paid. -/
theorem isDelinquent_latest_two_witness :
    IsDelinquent loanPaid1 aug15s =
      (if (loanPaid1.Schedule.getD (WeekIndexAt loanPaid1 aug15s - 2).toNat
            default).Paid = false ∧
          (loanPaid1.Schedule.getD (WeekIndexAt loanPaid1 aug15s - 1).toNat
            default).Paid = false
       then (true, 2, WeekIndexAt loanPaid1 aug15s)
       else (false, 0, WeekIndexAt loanPaid1 aug15s)) :=
  isDelinquent_latest_two.1 loanPaid1 aug15s (by decide)

/-- Counterexample to C1 as stated: after paying installment 1 of the
2025-08-01 loan, at 2025-08-15 (observedWeek 3) the code returns
`(true, 2, 3)` although the installments at 1-based indices
`observedWeek - 2 = 1` and `observedWeek - 1 = 2` are not both unpaid
(installment 1 is paid), so the claim's reading predicts `(false, 0, 3)`. -/
theorem isDelinquent_claim_counterexample :
    IsDelinquent loanPaid1 aug15s = (true, 2, 3) ∧
    isDelinquentClaimC1 loanPaid1 aug15s = (false, 0, 3) ∧
    (loanPaid1.Schedule.getD 0 default).Paid = true ∧
    IsDelinquent loanPaid1 aug15s ≠ isDelinquentClaimC1 loanPaid1 aug15s := by
  refine ⟨by decide, by decide, by decide, by decide⟩

theorem exists_unpaid_of_inv {l : Loan} (hI : Inv l) (hlt : l.PaidCount < 50) :
    ∃ k, firstUnpaidIndex l.Schedule = some k := by
  cases h : firstUnpaidIndex l.Schedule with
  | some k => exact ⟨k, rfl⟩
  | none =>
    have hall := firstUnpaid_none_iff.mp h
    have hc : l.Schedule.countP (fun w => w.Paid) = l.Schedule.length :=
      List.countP_eq_length.mpr hall
    rw [← hI.count, hI.len50] at hc
    omega

theorem paySucc {l : Loan} (hI : Inv l) (hlt : l.PaidCount < 50) (now : ℤ) :
    (MakePayment l l.WeeklyDue now).2 = none ∧
    (MakePayment l l.WeeklyDue now).1.PaidCount = l.PaidCount + 1 ∧
    (MakePayment l l.WeeklyDue now).1.WeeklyDue = l.WeeklyDue := by
  obtain ⟨k, hk⟩ := exists_unpaid_of_inv hI hlt
  have hkl : k < l.Schedule.length := firstUnpaid_lt hk
  have hamt : (l.Schedule.getD k default).Amount = l.WeeklyDue :=
    hI.amounts _ (getD_mem hkl)
  rcases makePayment_spec l l.WeeklyDue now with
    ⟨hnone, heq⟩ | ⟨k', hk', ⟨ha, heq⟩ | ⟨ha, heq⟩⟩
  · rw [hnone] at hk
    exact Option.noConfusion hk
  · rw [hk] at hk'
    rw [← Option.some.inj hk'] at ha
    exact absurd hamt.symm ha
  · rw [heq]
    exact ⟨rfl, rfl, rfl⟩

theorem payTimes_ok (now : ℤ) (l : Loan) (hI : Inv l) :
    ∀ m : ℕ, l.PaidCount + m ≤ 50 →
      (payTimes l l.WeeklyDue now m).2 = true ∧
      Inv (payTimes l l.WeeklyDue now m).1 ∧
      (payTimes l l.WeeklyDue now m).1.PaidCount = l.PaidCount + m ∧
      (payTimes l l.WeeklyDue now m).1.WeeklyDue = l.WeeklyDue := by
  intro m
  induction m with
  | zero => exact fun _ => ⟨rfl, hI, by simp [payTimes], rfl⟩
  | succ m ih =>
    intro hle
    obtain ⟨hok, hInv, hcnt, hwd⟩ := ih (by omega)
    have hlt : (payTimes l l.WeeklyDue now m).1.PaidCount < 50 := by omega
    have hs := paySucc hInv hlt now
    rw [hwd] at hs
    simp only [payTimes]
    refine ⟨?_, inv_pay _ _ hInv, ?_, ?_⟩
    · dsimp only
      rw [hok, hs.1]
      rfl
    · dsimp only
      rw [hs.2.1, hcnt]
      omega
    · dsimp only
      rw [hs.2.2]

/-- C9: on a loan fresh from createLoan, paying `weeklyDue` exactly 50 times
succeeds every time, leaving outstanding 0, paidCount 50 and every installment
paid, and any 51st payment fails with the already-paid error (unchanged state). -/
theorem full_payoff (id : String) (p : ℤ) (apr : ℚ) (d now : ℤ) (l : Loan)
    (h : NewLoan id p apr d = Except.ok l) :
    (payTimes l l.WeeklyDue now 50).2 = true ∧
    (payTimes l l.WeeklyDue now 50).1.Outstanding = 0 ∧
    (payTimes l l.WeeklyDue now 50).1.PaidCount = 50 ∧
    (∀ w ∈ (payTimes l l.WeeklyDue now 50).1.Schedule, w.Paid = true) ∧
    (∀ a n2, MakePayment (payTimes l l.WeeklyDue now 50).1 a n2 =
      ((payTimes l l.WeeklyDue now 50).1, some LoanError.ErrAlreadyPaid)) := by
  have hI := inv_created h
  have hc0 : l.PaidCount = 0 := by
    obtain ⟨-, -, -, rfl⟩ := ok_of_newLoan h
    rfl
  obtain ⟨hok, hInv, hcnt, hwd⟩ := payTimes_ok now l hI 50 (by omega)
  have hcnt50 : (payTimes l l.WeeklyDue now 50).1.PaidCount = 50 := by omega
  have hall : ∀ w ∈ (payTimes l l.WeeklyDue now 50).1.Schedule, w.Paid = true := by
    apply List.countP_eq_length.mp
    rw [← hInv.count, hInv.len50, hcnt50]
  have hnone : firstUnpaidIndex (payTimes l l.WeeklyDue now 50).1.Schedule = none :=
    firstUnpaid_none_iff.mpr hall
  refine ⟨hok, ?_, hcnt50, hall, ?_⟩
  · rw [hInv.outSum, unpaidSum_allW hInv.amounts, hInv.len50, ← hInv.count, hcnt50]
    push_cast
    ring
  · intro a n2
    unfold MakePayment
    rw [hnone]

/-- Witness for C9: the full-payoff law run on the concrete scenario loan. -/
theorem full_payoff_witness :
    (payTimes loanL1 loanL1.WeeklyDue 0 50).2 = true ∧
    (payTimes loanL1 loanL1.WeeklyDue 0 50).1.Outstanding = 0 ∧
    (payTimes loanL1 loanL1.WeeklyDue 0 50).1.PaidCount = 50 ∧
    (∀ w ∈ (payTimes loanL1 loanL1.WeeklyDue 0 50).1.Schedule, w.Paid = true) ∧
    (∀ a n2, MakePayment (payTimes loanL1 loanL1.WeeklyDue 0 50).1 a n2 =
      ((payTimes loanL1 loanL1.WeeklyDue 0 50).1, some LoanError.ErrAlreadyPaid)) :=
  full_payoff "L1" 5000000 (1/10) aug15s 0 loanL1 newLoan_L1

theorem createLoanFromRequest_L1 :
    CreateLoanFromRequest "L1" 5000000 0 aug15s = Except.ok loanL1 := by
  unfold CreateLoanFromRequest
  rw [if_pos rfl]
  dsimp only
  have hv : ValidateCreateLoanRequest ⟨5000000, 1/10, aug15s⟩ = Except.ok () := by
    unfold ValidateCreateLoanRequest
    rw [if_neg (by norm_num), if_neg (by norm_num), if_neg (by norm_num),
      if_neg (by norm_num)]
  rw [hv]
  unfold CreateLoan
  rw [hv]
  dsimp only
  rw [newLoan_L1]

/-- C10: the service entry point CreateLoanFromRequest silently replaces a
zero annualRate with 0.10 before validation and creation, so every loan it
produces carries a non-zero rate (zero input yields APR 0.10), even though the
core's createLoan itself accepts rate 0. -/
theorem createLoanFromRequest_default_rate :
    (∀ (id : String) (p d : ℤ),
      CreateLoanFromRequest id p 0 d = CreateLoanFromRequest id p (1/10) d) ∧
    (∀ (id : String) (p d : ℤ) (apr : ℚ) (l : Loan),
      CreateLoanFromRequest id p apr d = Except.ok l →
      l.APR ≠ 0 ∧ (apr = 0 → l.APR = 1/10)) ∧
    (∀ (id : String) (p d : ℤ), 0 < p → (50 : ℤ) ∣ p →
      ∃ l, NewLoan id p 0 d = Except.ok l ∧ l.APR = 0) := by
  refine ⟨?_, ?_, ?_⟩
  · intro id p d
    unfold CreateLoanFromRequest
    rw [if_pos rfl, if_neg (by norm_num)]
  · intro id p d apr l h
    unfold CreateLoanFromRequest at h
    dsimp only at h
    cases hv : ValidateCreateLoanRequest
        ⟨p, if apr = 0 then 1/10 else apr, d⟩ with
    | error e =>
      rw [hv] at h
      exact absurd h (by simp)
    | ok u =>
      rw [hv] at h
      dsimp only at h
      unfold CreateLoan at h
      rw [hv] at h
      dsimp only at h
      cases hn : NewLoan id p (if apr = 0 then 1/10 else apr) d with
      | error e =>
        rw [hn] at h
        exact absurd h (by simp)
      | ok l2 =>
        rw [hn] at h
        rw [← Except.ok.inj h] at *
        obtain ⟨-, -, -, rfl⟩ := ok_of_newLoan hn
        constructor
        · show (if apr = 0 then (1 : ℚ)/10 else apr) ≠ 0
          by_cases h0 : apr = 0
          · rw [if_pos h0]
            norm_num
          · rw [if_neg h0]
            exact h0
        · intro h0
          show (if apr = 0 then (1 : ℚ)/10 else apr) = 1/10
          rw [if_pos h0]
  · intro id p d hp hdvd
    have hrp : goRound ((p : ℚ) * (1 + 0)) = p := by
      rw [show ((p : ℚ) * (1 + 0)) = (p : ℚ) by ring]
      unfold goRound
      rw [if_neg (not_lt.mpr (by exact_mod_cast hp.le))]
      rw [Int.floor_int_add]
      norm_num
    unfold NewLoan
    rw [if_neg (by omega), if_neg (by norm_num)]
    dsimp only
    rw [hrp, if_neg (not_ne_iff.mpr (Int.emod_eq_zero_of_dvd hdvd))]
    exact ⟨_, rfl, rfl⟩

/-- Witness for C10: through the service entry point with rate 0 the produced
loan has APR 1/10 and never APR 0. -/
theorem createLoanFromRequest_default_rate_witness :
    loanL1.APR ≠ 0 ∧ ((0 : ℚ) = 0 → loanL1.APR = 1/10) :=
  createLoanFromRequest_default_rate.2.1 "L1" 5000000 aug15s 0 loanL1
    createLoanFromRequest_L1

/-- C4: the concrete scenario: createLoan("L1", 5000000, 0.10, 2025-08-15)
succeeds with weeklyDue 110000 and outstanding 5500000; a first payment of
110000 yields paid week 1 and remaining outstanding 5390000; a following
payment of 100000 fails with the wrong-amount error leaving the state
unchanged. -/
theorem concrete_scenario :
    NewLoan "L1" 5000000 (1/10) aug15s = Except.ok loanL1 ∧
    loanL1.WeeklyDue = 110000 ∧ loanL1.Outstanding = 5500000 ∧
    (ProcessPaymentFromRequest loanL1 110000 aug15s).2 =
      Except.ok ⟨1, 5390000⟩ ∧
    MakePayment (ProcessPaymentFromRequest loanL1 110000 aug15s).1 100000 aug15s =
      ((ProcessPaymentFromRequest loanL1 110000 aug15s).1,
        some LoanError.ErrWrongAmount) :=
  ⟨newLoan_L1, rfl, rfl, rfl, rfl⟩

/-- Witness for C3: conservation evaluated on the concrete scenario loan,
reachable by its creation. -/
theorem conservation_witness :
    loanL1.Outstanding + (loanL1.PaidCount : ℤ) * loanL1.WeeklyDue =
      goRound ((loanL1.Principal : ℚ) * (1 + loanL1.APR)) :=
  conservation_reachable loanL1 (Reachable.created newLoan_L1)

end Pinjol
